import Mathlib

/-!
Verification of the LLM orchestration layer of the Perfect-Prompt extension:
provider selection, session-cache lifecycle, and model-response validation.
Definitions are shallow embeddings of the JavaScript source
(`src/services/llm/SessionCache.js`, `src/services/llm/providers/LLMProviderInterface.js`,
`src/services/llm/config/llmConfig.js`).  JavaScript strings are modelled as
Lean strings (code points coincide with UTF-16 code units on the BMP inputs
used here), machine integers as `Int` with explicit 32-bit wrapping, and
`Date.now()` as an explicit `Int` parameter threaded through the stateful code.
-/

namespace PerfectPrompt

/-- JavaScript `ToInt32`: wrap an integer into the signed 32-bit range.
Used by the bitwise operators `<<` and `&` in `hashString`. -/
def toInt32 (x : Int) : Int :=
  ((x + 2 ^ 31) % 2 ^ 32) - 2 ^ 31

/-- One step of the rolling hash in `SessionCache.hashString`
(`hash = ((hash << 5) - hash) + char; hash = hash & hash`).
`hash << 5` wraps to int32, the arithmetic is exact (operands are far below
2^53), and `hash & hash` wraps the result back to int32. -/
def hashStep (hash : Int) (char : Nat) : Int :=
  toInt32 (toInt32 (hash * 32) - hash + char)

/-- Digit character for `Number.prototype.toString(36)`: `0`-`9` then `a`-`z`. -/
def base36Digit (n : Nat) : Char :=
  if n < 10 then Char.ofNat (48 + n) else Char.ofNat (87 + n)

/-- Fuel-driven digit accumulation for base-36 rendering. -/
def natToBase36Aux : Nat → Nat → List Char → List Char
  | 0, _, acc => acc
  | _ + 1, 0, acc => acc
  | fuel + 1, n, acc => natToBase36Aux fuel (n / 36) (base36Digit (n % 36) :: acc)

/-- JavaScript `n.toString(36)` for a non-negative integer. -/
def natToBase36 (n : Nat) : String :=
  if n = 0 then "0" else String.mk (natToBase36Aux (n + 1) n [])

/-- `SessionCache.hashString(str)`: fold the rolling hash over the string's
code units, then `Math.abs(hash).toString(36)`. -/
def hashString (str : String) : String :=
  natToBase36 (Int.natAbs (str.data.foldl (fun h c => hashStep h c.toNat) 0))

/-- `SessionCache.getSessionKey(providerName, systemPrompt)`:
`` `${providerName}:${promptHash}` ``. -/
def getSessionKey (providerName : String) (systemPrompt : String) : String :=
  providerName ++ ":" ++ hashString systemPrompt

/-! ## Session cache (`SessionCache`)

The cache state holds the `sessions` JavaScript `Map` as an association list
in insertion order (JS `Map` iteration order), the TTL and the capacity.
A session handle is opaque to the cache except for its `destroyed` flag;
we give handles an `id` so distinct creations are distinguishable.
`Date.now()` is passed explicitly as `now`; a single orchestrator-level call
observes one tick. -/

structure SessionHandle where
  id : Nat
  destroyed : Bool
deriving DecidableEq

structure CachedSession where
  session : SessionHandle
  timestamp : Int
  provider : String
  key : String
deriving DecidableEq

structure CacheState where
  sessions : List (String × CachedSession)
  sessionTTL : Int
  maxSessions : Nat
deriving DecidableEq

/-- `Map.prototype.get`. -/
def mapGet : List (String × CachedSession) → String → Option CachedSession
  | [], _ => none
  | (k, v) :: rest, key => if k = key then some v else mapGet rest key

/-- `Map.prototype.set`: replace in place if the key is present, else append. -/
def mapSet : List (String × CachedSession) → String → CachedSession →
    List (String × CachedSession)
  | [], key, v => [(key, v)]
  | (k, w) :: rest, key, v =>
      if k = key then (k, v) :: rest else (k, w) :: mapSet rest key v

/-- `Map.prototype.delete`. -/
def mapDelete : List (String × CachedSession) → String → List (String × CachedSession)
  | [], _ => []
  | (k, v) :: rest, key => if k = key then rest else (k, v) :: mapDelete rest key

/-- `SessionCache.isSessionValid(cached)`: TTL check (`age > this.sessionTTL`
fails validity) then destroyed-flag check.  The source's `!cached ||
!cached.session` guard is vacuous here because a stored record always carries
a handle. -/
def isSessionValid (sessionTTL now : Int) (cached : CachedSession) : Bool :=
  if now - cached.timestamp > sessionTTL then false
  else if cached.session.destroyed then false
  else true

/-- `SessionCache.removeSession(sessionKey)`: tears the handle down (not
tracked by the cache state) and deletes the map entry. -/
def removeSession (st : CacheState) (sessionKey : String) : CacheState :=
  { st with sessions := mapDelete st.sessions sessionKey }

/-- Loop body of the `enforceSessionLimit` scan: keep `(oldestKey, oldestTime)`
unless the current record is strictly older. -/
def oldestScan (acc : Option String × Int) (kc : String × CachedSession) :
    Option String × Int :=
  if kc.2.timestamp < acc.2 then (some kc.1, kc.2.timestamp) else acc

/-- The scan inside `enforceSessionLimit` over the map in insertion order,
starting from `oldestKey = null, oldestTime = Date.now()`. -/
def findOldest (sessions : List (String × CachedSession)) (now : Int) :
    Option String × Int :=
  sessions.foldl oldestScan (none, now)

/-- `SessionCache.enforceSessionLimit()`: when at or above capacity, remove
the record found by the `findOldest` scan (if any). -/
def enforceSessionLimit (st : CacheState) (now : Int) : CacheState :=
  if st.maxSessions ≤ st.sessions.length then
    match (findOldest st.sessions now).1 with
    | some oldestKey => removeSession st oldestKey
    | none => st
  else st

/-- The synchronous prefix of `getOrCreateSession`: look the key up; on a
valid record report a hit; on a stale record evict it (`removeSession`) and
report a miss. -/
def cacheLookupStep (st : CacheState) (now : Int) (key : String) :
    Option SessionHandle × CacheState :=
  match mapGet st.sessions key with
  | some cached =>
      if isSessionValid st.sessionTTL now cached then (some cached.session, st)
      else (none, removeSession st key)
  | none => (none, st)

/-- The store suffix of `getOrCreateSession`: cache the freshly created
session under the key with a fresh timestamp. -/
def cacheStoreStep (st : CacheState) (now : Int) (providerName key : String)
    (h : SessionHandle) : CacheState :=
  { st with sessions := mapSet st.sessions key ⟨h, now, providerName, key⟩ }

structure GetOrCreateResult where
  session : SessionHandle
  state : CacheState
  created : Bool
deriving DecidableEq

/-- `SessionCache.getOrCreateSession(providerName, systemPrompt, createSessionFn)`
run to completion with no interleaving.  `newSession` is the handle
`createSessionFn()` would resolve with; `created` records whether
`createSessionFn` was invoked. -/
def getOrCreateSession (st : CacheState) (now : Int) (providerName systemPrompt : String)
    (newSession : SessionHandle) : GetOrCreateResult :=
  let key := getSessionKey providerName systemPrompt
  match cacheLookupStep st now key with
  | (some s, st') => ⟨s, st', false⟩
  | (none, st') =>
      let st₂ := enforceSessionLimit st' now
      ⟨newSession, cacheStoreStep st₂ now providerName key newSession, true⟩

/-- A sequence of `getOrCreateSession` calls, each with its own `Date.now()`
tick, provider name, system prompt, and the handle its `createSessionFn`
would resolve with. -/
def runInserts (st : CacheState) :
    List (Int × String × String × SessionHandle) → CacheState
  | [] => st
  | (now, p, sp, h) :: rest => runInserts (getOrCreateSession st now p sp h).state rest

/-- The call times of a sequence are strictly increasing, starting strictly
after `t`. -/
def chronoAfter (t : Int) : List (Int × String × String × SessionHandle) → Bool
  | [] => true
  | (now, _, _, _) :: rest => decide (t < now) && chronoAfter now rest

structure TwoCallerResult where
  first : SessionHandle
  second : SessionHandle
  state : CacheState
  createCount : Nat
deriving DecidableEq

/-- Two logical callers invoking `getOrCreateSession` for the same
`(providerName, systemPrompt)` under the cooperative (event-loop) scheduling
model.  Caller 1 runs its synchronous lookup phase, then suspends at its
`await`s (`enforceSessionLimit`, `createSessionFn()`); caller 2 starts during
that suspension and runs its own lookup phase before caller 1's creation has
resolved and stored anything.  Creations resolve in caller order; `h₁`, `h₂`
are the handles the first and second invocation of `createSessionFn` resolve
with, and `createCount` counts the invocations of `createSessionFn`. -/
def twoConcurrentCallers (st : CacheState) (now : Int) (p sp : String)
    (h₁ h₂ : SessionHandle) : TwoCallerResult :=
  let key := getSessionKey p sp
  match cacheLookupStep st now key with
  | (some s, st₁) =>
      let r₂ := getOrCreateSession st₁ now p sp h₁
      ⟨s, r₂.session, r₂.state, if r₂.created then 1 else 0⟩
  | (none, st₁) =>
      let st₂ := enforceSessionLimit st₁ now
      match cacheLookupStep st₂ now key with
      | (some s₂, st₃) =>
          ⟨h₁, s₂, cacheStoreStep st₃ now p key h₁, 1⟩
      | (none, st₃) =>
          let st₄ := enforceSessionLimit st₃ now
          let st₅ := cacheStoreStep st₄ now p key h₁
          let st₆ := cacheStoreStep st₅ now p key h₂
          ⟨h₁, h₂, st₆, 2⟩

/-! ## JSON values and a model of `JSON.parse`

`JSON.parse` is a host primitive, not repository code; it is modelled here by
a recursive-descent parser over the JSON fragment the orchestrator exchanges:
objects, arrays, strings (with the common escapes), booleans, `null`, and
integer-valued numbers (fractions/exponents are outside the fragment the
claims exercise).  Numbers are carried as `Rat` so non-integer result fields
(e.g. `confidence: 0.9`) can be represented. -/

inductive JsonVal where
  | num (n : Rat)
  | str (s : String)
  | bool (b : Bool)
  | null
  | arr (elems : List JsonVal)
  | obj (fields : List (String × JsonVal))

/-- The left-brace character, code point 123. -/
def lbrace : Char := Char.ofNat 123

/-- The right-brace character; code point 125. -/
def rbrace : Char := Char.ofNat 125

/-- The backtick character; code point 96. -/
def backtick : Char := Char.ofNat 96

/-- JSON whitespace (space, tab, line feed, carriage return). -/
def isJsonWs (c : Char) : Bool :=
  c == ' ' || c == '\t' || c == '\n' || c == '\r'

/-- Whitespace for JavaScript `String.prototype.trim` (ASCII subset). -/
def isJsWs (c : Char) : Bool :=
  c == ' ' || c == '\t' || c == '\n' || c == '\r' || c == '\x0b' || c == '\x0c'

/-- JavaScript `s.trim()`. -/
def jsTrim (s : String) : String :=
  String.mk (((s.data.dropWhile isJsWs).reverse.dropWhile isJsWs).reverse)

/-- JavaScript `s.substring(0, 100)`. -/
def jsSubstring100 (s : String) : String :=
  String.mk (s.data.take 100)

def skipWsL (l : List Char) : List Char :=
  l.dropWhile isJsonWs

/-- Body of a JSON string literal after the opening quote, accumulating
decoded characters; handles the escapes `\" \\ \/ \n \t \r`. -/
def parseStringAux : Nat → List Char → List Char → Option (List Char × List Char)
  | 0, _, _ => none
  | _ + 1, _, [] => none
  | fuel + 1, acc, c :: rest =>
      if c = '"' then some (acc.reverse, rest)
      else if c = '\\' then
        match rest with
        | [] => none
        | e :: rest' =>
            let esc : Option Char :=
              if e = '"' then some '"'
              else if e = '\\' then some '\\'
              else if e = '/' then some '/'
              else if e = 'n' then some '\n'
              else if e = 't' then some '\t'
              else if e = 'r' then some '\r'
              else none
            match esc with
            | some ch => parseStringAux fuel (ch :: acc) rest'
            | none => none
      else parseStringAux fuel (c :: acc) rest

def digitsToNat (ds : List Char) : Nat :=
  ds.foldl (fun n c => n * 10 + (c.toNat - 48)) 0

/-- Integer-valued JSON numbers: optional minus sign then digits. -/
def parseNumber (l : List Char) : Option (Rat × List Char) :=
  match l with
  | '-' :: rest =>
      let ds := rest.takeWhile Char.isDigit
      if ds.isEmpty then none
      else some (-(digitsToNat ds : Int), rest.drop ds.length)
  | _ =>
      let ds := l.takeWhile Char.isDigit
      if ds.isEmpty then none
      else some ((digitsToNat ds : Nat), l.drop ds.length)

mutual

def parseValue : Nat → List Char → Option (JsonVal × List Char)
  | 0, _ => none
  | fuel + 1, l =>
      match skipWsL l with
      | [] => none
      | c :: rest =>
          if c = '"' then
            match parseStringAux (rest.length + 1) [] rest with
            | some (cs, rest') => some (.str (String.mk cs), rest')
            | none => none
          else if c = lbrace then
            match skipWsL rest with
            | d :: rest' =>
                if d = rbrace then some (.obj [], rest')
                else parseMembers fuel [] (skipWsL rest)
            | [] => none
          else if c = '[' then
            match skipWsL rest with
            | d :: rest' =>
                if d = ']' then some (.arr [], rest')
                else parseElems fuel [] (skipWsL rest)
            | [] => none
          else if c = 't' then
            if rest.take 3 = ['r', 'u', 'e'] then some (.bool true, rest.drop 3) else none
          else if c = 'f' then
            if rest.take 4 = ['a', 'l', 's', 'e'] then some (.bool false, rest.drop 4)
            else none
          else if c = 'n' then
            if rest.take 3 = ['u', 'l', 'l'] then some (.null, rest.drop 3) else none
          else
            match parseNumber (c :: rest) with
            | some (q, rest') => some (.num q, rest')
            | none => none

def parseMembers : Nat → List (String × JsonVal) → List Char →
    Option (JsonVal × List Char)
  | 0, _, _ => none
  | fuel + 1, acc, l =>
      match skipWsL l with
      | c :: rest =>
          if c = '"' then
            match parseStringAux (rest.length + 1) [] rest with
            | some (cs, rest₁) =>
                match skipWsL rest₁ with
                | ':' :: rest₂ =>
                    match parseValue fuel rest₂ with
                    | some (v, rest₃) =>
                        match skipWsL rest₃ with
                        | ',' :: rest₄ => parseMembers fuel (acc ++ [(String.mk cs, v)]) rest₄
                        | d :: rest₄ =>
                            if d = rbrace then some (.obj (acc ++ [(String.mk cs, v)]), rest₄)
                            else none
                        | [] => none
                    | none => none
                | _ => none
            | none => none
          else none
      | [] => none

def parseElems : Nat → List JsonVal → List Char → Option (JsonVal × List Char)
  | 0, _, _ => none
  | fuel + 1, acc, l =>
      match parseValue fuel l with
      | some (v, rest) =>
          match skipWsL rest with
          | ',' :: rest' => parseElems fuel (acc ++ [v]) rest'
          | d :: rest' => if d = ']' then some (.arr (acc ++ [v]), rest') else none
          | [] => none
      | none => none

end

/-- Model of `JSON.parse(s)`: a complete value with only trailing whitespace. -/
def jsonParse (s : String) : Option JsonVal :=
  match parseValue (s.length + 1) s.data with
  | some (v, rest) => if (skipWsL rest).isEmpty then some v else none
  | none => none

/-! ## Response extraction (`parseAIResponse` in `SessionCache.js`) -/

/-- Split a character list around the first occurrence of `pat`, returning
the part before and the part after the occurrence. -/
def afterFirst (pat : List Char) : Nat → List Char → Option (List Char × List Char)
  | 0, _ => none
  | fuel + 1, l =>
      if pat.isPrefixOf l then some ([], l.drop pat.length)
      else
        match l with
        | [] => none
        | c :: rest => (afterFirst pat fuel rest).map (fun p => (c :: p.1, p.2))

def fenceChars : List Char := [backtick, backtick, backtick]

/-- The fenced-code-block extraction regex
`` /```(?:json)?\s*\n?([\s\S]*?)\n?```/ ``: take the text between the first
fence (skipping a literal `json` tag) and the next fence.  The regex's
`\s*\n?` prefix and `\n?` suffix adjustments of the capture are absorbed by
the `.trim()` the only call site applies to the captured group. -/
def extractCodeBlock (text : String) : Option String :=
  match afterFirst fenceChars (text.length + 1) text.data with
  | none => none
  | some (_, afterOpen) =>
      let afterTag := if ("json".data).isPrefixOf afterOpen then afterOpen.drop 4
        else afterOpen
      match afterFirst fenceChars (afterTag.length + 1) afterTag with
      | none => none
      | some (inner, _) => some (String.mk inner)

/-- The last-resort extraction regex `/\{[\s\S]*\}/`: the substring from the
first left brace to the last right brace (matching only when some right brace
follows the first left brace). -/
def braceSpan (text : String) : Option String :=
  let fromBrace := text.data.dropWhile (fun c => !(c == lbrace))
  if fromBrace.isEmpty then none
  else
    let upToLast := (fromBrace.reverse.dropWhile (fun c => !(c == rbrace))).reverse
    if upToLast.isEmpty then none else some (String.mk upToLast)

/-- How `parseAIResponse` fails: a `JSON.parse` `SyntaxError` propagating from
an extracted candidate, or the function's own `Invalid JSON response: …`
error carrying the truncated original text. -/
inductive ParseFailure where
  | jsonSyntaxError (source : String)
  | invalidResponse (excerpt : String)
deriving DecidableEq

/-- `parseAIResponse(response)` from `SessionCache.js`: try `JSON.parse` on
the trimmed text; on failure try the fenced code block, then the brace span —
note that a `JSON.parse` failure on an extracted candidate propagates out of
the `catch` block without trying later strategies. -/
def parseAIResponse (response : String) : Except ParseFailure JsonVal :=
  let text := jsTrim response
  match jsonParse text with
  | some v => .ok v
  | none =>
      match extractCodeBlock text with
      | some inner =>
          match jsonParse (jsTrim inner) with
          | some v => .ok v
          | none => .error (.jsonSyntaxError (jsTrim inner))
      | none =>
          match braceSpan text with
          | some sub =>
              match jsonParse sub with
              | some v => .ok v
              | none => .error (.jsonSyntaxError sub)
          | none => .error (.invalidResponse (jsSubstring100 text))

/-! ## JavaScript object/truthiness helpers -/

/-- JavaScript truthiness of a JSON value (`NaN` is outside the model). -/
def jsTruthy : JsonVal → Bool
  | .num n => !(n == 0)
  | .str s => !(s == "")
  | .bool b => b
  | .null => false
  | .arr _ => true
  | .obj _ => true

/-- Property read on a JavaScript object literal: later duplicate keys win;
reads on non-objects yield `undefined` (`none`). -/
def fieldGet : List (String × JsonVal) → String → Option JsonVal
  | [], _ => none
  | (k, v) :: rest, name =>
      match fieldGet rest name with
      | some v' => some v'
      | none => if k = name then some v else none

def JsonVal.getField : JsonVal → String → Option JsonVal
  | .obj fields, name => fieldGet fields name
  | _, _ => none

/-- JavaScript `x || d` where `x` is a possibly-absent (`undefined`) field. -/
def jsOrDefault (v : Option JsonVal) (d : JsonVal) : JsonVal :=
  match v with
  | some x => if jsTruthy x then x else d
  | none => d

/-- Truthiness of a possibly-absent field (`undefined` is falsy). -/
def jsFieldTruthy (v : Option JsonVal) : Bool :=
  match v with
  | some x => jsTruthy x
  | none => false

/-! ## Provider-level response parsing (`LLMProviderInterface.js`)

Result objects are modelled as JavaScript object literals — ordered field
lists read through `fieldGet` — so that field *absence* (JavaScript
`undefined`) is representable.  The `metadata.timestamp = Date.now()` field
and the provider's response-time/token bookkeeping are omitted: no claim
reads them. -/

/-- `createAnalysisResult({...})` with every field the call site supplies
(call sites always shadow the defaults they care about). -/
def createAnalysisResult (success : Bool) (issues suggestions optimizedPrompt
    vaguenessScore : JsonVal) (provider : String) (confidence : Rat)
    (metadata : JsonVal) : List (String × JsonVal) :=
  [("success", .bool success), ("issues", issues), ("suggestions", suggestions),
    ("optimizedPrompt", optimizedPrompt), ("vaguenessScore", vaguenessScore),
    ("provider", .str provider), ("confidence", .num confidence),
    ("metadata", metadata)]

/-- `ChromePromptProvider.createFallbackAnalysis(aiResponse, originalPrompt)`. -/
def createFallbackAnalysis (aiResponse originalPrompt : String) :
    List (String × JsonVal) :=
  createAnalysisResult true
    (.arr [.str "AI analysis completed but response format unclear"])
    (.arr [.str "Review the raw AI response below"])
    (if originalPrompt.length < aiResponse.length then .str aiResponse
      else .str originalPrompt)
    (.num 5) "chrome-prompt" (3 / 10)
    (.obj [("rawResponse", .str aiResponse), ("parseError", .bool true)])

/-- `ChromePromptProvider.parseAnalysisResponse(aiResponse, originalPrompt)`:
extract the brace span, `JSON.parse` it, and when `issues`, `suggestions` and
`optimizedPrompt` are all truthy build the structured result with
`vaguenessScore: parsed.vaguenessScore || 5`; otherwise (no span, parse
failure — caught by the surrounding `try` — or missing fields) fall back. -/
def parseAnalysisResponse (aiResponse originalPrompt : String) :
    List (String × JsonVal) :=
  match braceSpan aiResponse with
  | some sub =>
      match jsonParse sub with
      | some parsed =>
          if jsFieldTruthy (parsed.getField "issues") &&
              jsFieldTruthy (parsed.getField "suggestions") &&
              jsFieldTruthy (parsed.getField "optimizedPrompt") then
            createAnalysisResult true
              ((parsed.getField "issues").getD .null)
              ((parsed.getField "suggestions").getD .null)
              ((parsed.getField "optimizedPrompt").getD .null)
              (jsOrDefault (parsed.getField "vaguenessScore") (.num 5))
              "chrome-prompt" (8 / 10) (.obj [])
          else createFallbackAnalysis aiResponse originalPrompt
      | none => createFallbackAnalysis aiResponse originalPrompt
  | none => createFallbackAnalysis aiResponse originalPrompt

/-! ## Orchestrator (`LLMService` in `SessionCache.js`)

The host side of each operation — provider selection, cached session
creation, and the model round trip — is abstracted as an environment of
`Except`-valued outcomes; the model threads them exactly where the source
`await`s them and records an event per provider/cache interaction, so
"activity before raising" is observable. -/

inductive OrchestratorEvent where
  | selectProvider
  | createSession
  | promptSession
deriving DecidableEq

/-- Environment for `generateClarifyingQuestions` / `optimizeWithContext`:
outcome of `getOrSelectProvider()` (the provider's name), of
`sessionCache.getOrCreateSession(...)`, and of `session.prompt(...)`. -/
structure SessionEnv where
  provider : Except String String
  session : Except String SessionHandle
  response : Except String String

/-- Environment for `analyzePrompt`: outcome of `getOrSelectProvider()`, of
`sessionCache.getOrCreateSession(...)`, and of `provider.analyzePrompt(...)`
(which itself never rejects for expected failures — it returns a result
object — but the `await` can still surface programmer errors). -/
structure AnalyzeEnv where
  provider : Except String String
  session : Except String SessionHandle
  analyzeResult : Except String (List (String × JsonVal))

/-- `LLM_CONFIG.analysis` bounds from `llmConfig.js`. -/
structure AnalysisConfig where
  minPromptLength : Nat
  maxPromptLength : Nat

def llmAnalysisConfig : AnalysisConfig :=
  { minPromptLength := 3, maxPromptLength := 10000 }

/-- The error-format result `LLMService.analyzePrompt` returns from its
`catch` block. -/
def analysisFailureResult (prompt errMsg : String) : List (String × JsonVal) :=
  [("success", .bool false),
    ("issues", .arr [.str ("Analysis failed: " ++ errMsg)]),
    ("suggestions", .arr [.str "Check if PromptAPI is enabled in chrome://flags/",
      .str "Ensure you have sufficient storage space",
      .str "Try refreshing the page and trying again"]),
    ("optimizedPrompt", .str prompt),
    ("vaguenessScore", .num 0),
    ("provider", .str "error"),
    ("confidence", .num 0),
    ("metadata", .obj [("error", .str errMsg)])]

/-- `LLMService.analyzePrompt(prompt, fieldInfo, onProgress)`: validate the
length bounds (raising synchronously — `Except.error` — before any provider
interaction), then run selection, cached session creation and the provider's
analysis inside `try`, converting any rejection into the error-format
result. -/
def analyzePromptModel (cfg : AnalysisConfig) (env : AnalyzeEnv) (prompt : String) :
    Except String (List (String × JsonVal) × List OrchestratorEvent) :=
  if prompt = "" ∨ prompt.length < cfg.minPromptLength then
    .error "Prompt too short for analysis"
  else if cfg.maxPromptLength < prompt.length then
    .error "Prompt too long for analysis"
  else
    match env.provider with
    | .error e => .ok (analysisFailureResult prompt e, [.selectProvider])
    | .ok _ =>
        match env.session with
        | .error e =>
            .ok (analysisFailureResult prompt e, [.selectProvider, .createSession])
        | .ok _ =>
            match env.analyzeResult with
            | .error e =>
                .ok (analysisFailureResult prompt e,
                  [.selectProvider, .createSession, .promptSession])
            | .ok r =>
                .ok (r, [.selectProvider, .createSession, .promptSession])

/-- `LLMService.generateClarifyingQuestions(prompt, fieldInfo, onProgress)`:
no input validation; all failures are caught and returned as result objects
(the outer `catch` uses provider `"error"`, the parse `catch` keeps the
selected provider's name and carries no `confidence`/`issues`/`suggestions`
fields). -/
def generateClarifyingQuestions (env : SessionEnv) (_prompt : String) :
    List (String × JsonVal) × List OrchestratorEvent :=
  match env.provider with
  | .error e =>
      ([("success", .bool false), ("questions", .arr []), ("error", .str e),
        ("provider", .str "error")], [.selectProvider])
  | .ok pname =>
      match env.session with
      | .error e =>
          ([("success", .bool false), ("questions", .arr []), ("error", .str e),
            ("provider", .str "error")], [.selectProvider, .createSession])
      | .ok _ =>
          match env.response with
          | .error e =>
              ([("success", .bool false), ("questions", .arr []), ("error", .str e),
                ("provider", .str "error")],
                [.selectProvider, .createSession, .promptSession])
          | .ok response =>
              match parseAIResponse response with
              | .ok parsed =>
                  ([("success", .bool true),
                    ("questions", jsOrDefault (parsed.getField "questions") (.arr [])),
                    ("provider", .str pname), ("metadata", .obj [])],
                    [.selectProvider, .createSession, .promptSession])
              | .error _ =>
                  ([("success", .bool false), ("questions", .arr []),
                    ("error", .str "Failed to generate questions. Please try again."),
                    ("provider", .str pname)],
                    [.selectProvider, .createSession, .promptSession])

/-- `LLMService.optimizeWithContext(originalPrompt, clarifyingAnswers,
fieldInfo, onProgress)`: no input validation; outer failures yield
`vaguenessScore: 1` and provider `"error"`, parse failures `vaguenessScore: 3`
with the provider's name, successes `parsed.vaguenessScore || 8` and
`confidence: 0.9`. -/
def optimizeWithContext (env : SessionEnv) (originalPrompt : String)
    (answersCount : Nat) : List (String × JsonVal) × List OrchestratorEvent :=
  match env.provider with
  | .error e =>
      ([("success", .bool false), ("optimizedPrompt", .str originalPrompt),
        ("improvements", .arr []), ("vaguenessScore", .num 1), ("error", .str e),
        ("provider", .str "error")], [.selectProvider])
  | .ok pname =>
      match env.session with
      | .error e =>
          ([("success", .bool false), ("optimizedPrompt", .str originalPrompt),
            ("improvements", .arr []), ("vaguenessScore", .num 1), ("error", .str e),
            ("provider", .str "error")], [.selectProvider, .createSession])
      | .ok _ =>
          match env.response with
          | .error e =>
              ([("success", .bool false), ("optimizedPrompt", .str originalPrompt),
                ("improvements", .arr []), ("vaguenessScore", .num 1),
                ("error", .str e), ("provider", .str "error")],
                [.selectProvider, .createSession, .promptSession])
          | .ok response =>
              match parseAIResponse response with
              | .ok parsed =>
                  ([("success", .bool true),
                    ("optimizedPrompt",
                      jsOrDefault (parsed.getField "optimizedPrompt")
                        (.str originalPrompt)),
                    ("improvements", jsOrDefault (parsed.getField "improvements")
                      (.arr [])),
                    ("vaguenessScore", jsOrDefault (parsed.getField "vaguenessScore")
                      (.num 8)),
                    ("provider", .str pname), ("confidence", .num (9 / 10)),
                    ("metadata", .obj [("hadClarifyingQuestions", .bool true),
                      ("questionsCount", .num answersCount)])],
                    [.selectProvider, .createSession, .promptSession])
              | .error _ =>
                  ([("success", .bool false),
                    ("optimizedPrompt", .str originalPrompt),
                    ("improvements", .arr []), ("vaguenessScore", .num 3),
                    ("error", .str "Failed to optimize prompt. Please try again."),
                    ("provider", .str pname)],
                    [.selectProvider, .createSession, .promptSession])

/-! ## Provider selection (`LLMService.selectBestProvider`) -/

inductive Availability where
  | ready
  | downloading
  | unavailable
deriving DecidableEq

structure ProviderConfig where
  name : String
  priority : Int
deriving DecidableEq

/-- Stable insertion for `getProvidersByPriority`'s
`sort((a, b) => a.priority - b.priority)` (ECMAScript sorts are stable).
The inserted config precedes the tail's configs in the original registration
order, so it is placed before any tail config of equal priority (`≤`, not
`<`): ties keep registration order. -/
def insertByPriority (c : ProviderConfig) : List ProviderConfig → List ProviderConfig
  | [] => [c]
  | d :: rest =>
      if c.priority ≤ d.priority then c :: d :: rest else d :: insertByPriority c rest

def sortByPriority : List ProviderConfig → List ProviderConfig
  | [] => []
  | c :: rest => insertByPriority c (sortByPriority rest)

/-- The provider registry with each registered provider's probed
availability (`checkAvailability` is modelled as total: the source treats a
throwing probe the same as a non-qualifying one, skipping the provider). -/
def registryGet : List (String × Availability) → String → Option Availability
  | [], _ => none
  | (k, v) :: rest, name => if k = name then some v else registryGet rest name

structure ProviderUnavailableError where
  registeredProviders : List String
  availableConfigs : List String
deriving DecidableEq

/-- The selection loop of `selectBestProvider`: skip unregistered configs,
accept `ready`, accept `downloading` only for the provider named
`chrome-prompt`, otherwise continue. -/
def selectLoop (registry : List (String × Availability)) :
    List ProviderConfig → Option String
  | [] => none
  | c :: rest =>
      match registryGet registry c.name with
      | none => selectLoop registry rest
      | some avail =>
          match avail with
          | .ready => some c.name
          | .downloading =>
              if c.name = "chrome-prompt" then some c.name
              else selectLoop registry rest
          | .unavailable => selectLoop registry rest

/-- `LLMService.selectBestProvider()`: walk `getProvidersByPriority()` in
ascending priority order over the registry; on no qualifying provider, throw
the debug error carrying the registered names and the config names. -/
def selectBestProvider (configs : List ProviderConfig)
    (registry : List (String × Availability)) :
    Except ProviderUnavailableError String :=
  match selectLoop registry (sortByPriority configs) with
  | some name => .ok name
  | none =>
      .error ⟨registry.map Prod.fst, (sortByPriority configs).map ProviderConfig.name⟩

/-- Acceptance predicate of the selection loop, for stating its
characterization: registered and `ready`, or registered and `downloading`
while named `chrome-prompt`. -/
def eligible (registry : List (String × Availability)) (c : ProviderConfig) : Bool :=
  match registryGet registry c.name with
  | some .ready => true
  | some .downloading => c.name == "chrome-prompt"
  | _ => false

/-- C6: the session-key function is a deterministic function of byte-identical
inputs, but it is NOT collision-free: the 32-bit rolling hash identifies the
distinct system prompts "Aa" and "BB" (both hash to 2112), so the claim that
different system prompts never map to the same key is false. -/
theorem C6_counterexample :
    getSessionKey "chrome-prompt" "Aa" = getSessionKey "chrome-prompt" "BB" ∧
      "Aa" ≠ "BB" := by
  constructor
  · rfl
  · decide

/-- C6 (amended): the session-key function is deterministic — byte-identical
(providerName, systemPrompt) pairs map to the same key — but it is not
collision-free: there exist two distinct system prompts for the same provider
that map to the same key. -/
theorem C6_sessionKey_deterministic_but_collides :
    (∀ p s₁ s₂ : String, s₁ = s₂ → getSessionKey p s₁ = getSessionKey p s₂) ∧
      (∃ p s₁ s₂ : String, s₁ ≠ s₂ ∧ getSessionKey p s₁ = getSessionKey p s₂) := by
  refine ⟨fun p s₁ s₂ h => by rw [h], ⟨"chrome-prompt", "Aa", "BB", by decide, rfl⟩⟩

/-- C6 witness: the determinism half applied at a concrete input. -/
theorem C6_sessionKey_deterministic_but_collides_witness :
    getSessionKey "chrome-prompt" "Aa" = getSessionKey "chrome-prompt" "Aa" :=
  C6_sessionKey_deterministic_but_collides.1 "chrome-prompt" "Aa" "Aa" rfl

/-! ## Supporting lemmas about the cache map operations -/

theorem mapGet_mapSet_self (m : List (String × CachedSession)) (k : String)
    (v : CachedSession) : mapGet (mapSet m k v) k = some v := by
  induction m with
  | nil => simp [mapSet, mapGet]
  | cons kv rest ih =>
      by_cases h : kv.1 = k
      · simp [mapSet, mapGet, h]
      · simp [mapSet, mapGet, h, ih]

theorem mapGet_mapDelete_none (m : List (String × CachedSession)) (k' k : String)
    (h : mapGet m k = none) : mapGet (mapDelete m k') k = none := by
  induction m with
  | nil => simp [mapDelete, mapGet]
  | cons kv rest ih =>
      obtain ⟨a, b⟩ := kv
      by_cases h1 : a = k
      · simp [mapGet, h1] at h
      · have h' : mapGet rest k = none := by simpa [mapGet, h1] using h
        by_cases h2 : a = k'
        · simpa [mapDelete, h2] using h'
        · simp [mapDelete, h2, mapGet, h1, ih h']

theorem mapGet_enforce_none (st : CacheState) (now : Int) (k : String)
    (h : mapGet st.sessions k = none) :
    mapGet (enforceSessionLimit st now).sessions k = none := by
  unfold enforceSessionLimit
  split
  · cases (findOldest st.sessions now).1 with
    | none => simpa using h
    | some oldestKey => simpa [removeSession] using mapGet_mapDelete_none _ oldestKey k h
  · simpa using h

theorem enforce_preserves_TTL (st : CacheState) (now : Int) :
    (enforceSessionLimit st now).sessionTTL = st.sessionTTL := by
  unfold enforceSessionLimit
  split
  · cases (findOldest st.sessions now).1 with
    | none => rfl
    | some k => rfl
  · rfl

theorem enforce_preserves_max (st : CacheState) (now : Int) :
    (enforceSessionLimit st now).maxSessions = st.maxSessions := by
  unfold enforceSessionLimit
  split
  · cases (findOldest st.sessions now).1 with
    | none => rfl
    | some k => rfl
  · rfl

theorem isSessionValid_iff (ttl now : Int) (c : CachedSession) :
    isSessionValid ttl now c = true ↔
      now - c.timestamp ≤ ttl ∧ c.session.destroyed = false := by
  unfold isSessionValid
  by_cases h1 : now - c.timestamp > ttl <;>
    by_cases h2 : c.session.destroyed <;> simp [h1, h2] <;> omega

/-- Unfolding equation for `getOrCreateSession` in terms of the raw map. -/
theorem getOrCreateSession_eq (st : CacheState) (now : Int) (p sp : String)
    (h : SessionHandle) :
    getOrCreateSession st now p sp h =
      match mapGet st.sessions (getSessionKey p sp) with
      | some c =>
          if isSessionValid st.sessionTTL now c then ⟨c.session, st, false⟩
          else
            ⟨h, cacheStoreStep
                (enforceSessionLimit (removeSession st (getSessionKey p sp)) now)
                now p (getSessionKey p sp) h, true⟩
      | none =>
          ⟨h, cacheStoreStep (enforceSessionLimit st now) now p (getSessionKey p sp) h,
            true⟩ := by
  cases eq : mapGet st.sessions (getSessionKey p sp) with
  | none => simp [getOrCreateSession, cacheLookupStep, eq]
  | some c =>
      by_cases hv : isSessionValid st.sessionTTL now c <;>
        simp [getOrCreateSession, cacheLookupStep, eq, hv]

/-- C3: the claim's cache-hit condition uses a strict `now - createdAt < ttl`,
but the source checks `age > this.sessionTTL`, so a record of age exactly
`ttl` is still served from the cache: with `ttl = 1000`, a record created at
`t = 0` is returned at `now = 1000` without invoking `createFn`, although
`now - createdAt < ttl` is false. -/
theorem C3_counterexample :
    (getOrCreateSession
        ⟨[(getSessionKey "p" "sys", ⟨⟨1, false⟩, 0, "p", getSessionKey "p" "sys"⟩)],
          1000, 5⟩
        1000 "p" "sys" ⟨2, false⟩).created = false ∧
      (getOrCreateSession
        ⟨[(getSessionKey "p" "sys", ⟨⟨1, false⟩, 0, "p", getSessionKey "p" "sys"⟩)],
          1000, 5⟩
        1000 "p" "sys" ⟨2, false⟩).session = ⟨1, false⟩ ∧
      ¬((1000 : Int) - 0 < 1000) := by
  refine ⟨by decide, by decide, by decide⟩

/-- C3 (amended): `getOrCreateSession` returns the cached handle without
invoking `createFn` if and only if a record exists for the key,
`now - createdAt ≤ ttl` (non-strict, matching the source's `age > ttl`
staleness test), and the handle does not report itself destroyed; and two
sequential calls with identical `(providerName, systemPrompt)` within `ttl`
invoke `createFn` exactly once and both return the same handle. -/
theorem C3_cache_hit_iff_and_single_create :
    (∀ (st : CacheState) (now : Int) (p sp : String) (h : SessionHandle),
      ((getOrCreateSession st now p sp h).created = false ↔
        ∃ c, mapGet st.sessions (getSessionKey p sp) = some c ∧
          now - c.timestamp ≤ st.sessionTTL ∧ c.session.destroyed = false) ∧
      (∀ c, mapGet st.sessions (getSessionKey p sp) = some c →
        now - c.timestamp ≤ st.sessionTTL → c.session.destroyed = false →
        (getOrCreateSession st now p sp h).session = c.session ∧
          (getOrCreateSession st now p sp h).state = st)) ∧
    (∀ (st : CacheState) (t₁ t₂ : Int) (p sp : String) (h h' : SessionHandle),
      mapGet st.sessions (getSessionKey p sp) = none →
      h.destroyed = false → t₁ ≤ t₂ → t₂ - t₁ ≤ st.sessionTTL →
      (getOrCreateSession st t₁ p sp h).created = true ∧
        (getOrCreateSession st t₁ p sp h).session = h ∧
        (getOrCreateSession (getOrCreateSession st t₁ p sp h).state t₂ p sp h').created
            = false ∧
        (getOrCreateSession (getOrCreateSession st t₁ p sp h).state t₂ p sp h').session
            = h) := by
  have hit := fun (st : CacheState) (now : Int) (p sp : String) (h : SessionHandle) =>
    getOrCreateSession_eq st now p sp h
  constructor
  · intro st now p sp h
    rw [hit st now p sp h]
    cases eq : mapGet st.sessions (getSessionKey p sp) with
    | none =>
        constructor
        · simp
        · intro c hc
          exact absurd hc (by simp)
    | some c =>
        by_cases hv : isSessionValid st.sessionTTL now c = true
        · have hv' := (isSessionValid_iff _ _ _).mp hv
          constructor
          · simp only [if_pos hv]
            simp only [true_iff]
            exact ⟨c, rfl, hv'.1, hv'.2⟩
          · intro c' hc' hT hD
            cases hc'
            simp [if_pos hv]
        · constructor
          · simp only [if_neg hv]
            constructor
            · intro hfalse
              cases hfalse
            · rintro ⟨c', hc', hT, hD⟩
              cases hc'
              exact (hv ((isSessionValid_iff _ _ _).mpr ⟨hT, hD⟩)).elim
          · intro c' hc' hT hD
            cases hc'
            exact absurd ((isSessionValid_iff _ _ _).mpr ⟨hT, hD⟩) hv
  · intro st t₁ t₂ p sp h h' hnone hdes hle httl
    have step1 : getOrCreateSession st t₁ p sp h =
        ⟨h, cacheStoreStep (enforceSessionLimit st t₁) t₁ p (getSessionKey p sp) h,
          true⟩ := by
      rw [hit st t₁ p sp h, hnone]
    have hstate : (getOrCreateSession st t₁ p sp h).state =
        cacheStoreStep (enforceSessionLimit st t₁) t₁ p (getSessionKey p sp) h := by
      rw [step1]
    have hstored :
        mapGet (cacheStoreStep (enforceSessionLimit st t₁) t₁ p
            (getSessionKey p sp) h).sessions (getSessionKey p sp) =
          some ⟨h, t₁, p, getSessionKey p sp⟩ :=
      mapGet_mapSet_self _ _ _
    have httl' : (cacheStoreStep (enforceSessionLimit st t₁) t₁ p
        (getSessionKey p sp) h).sessionTTL = st.sessionTTL := by
      show (enforceSessionLimit st t₁).sessionTTL = st.sessionTTL
      exact enforce_preserves_TTL st t₁
    have hvalid : isSessionValid
        (cacheStoreStep (enforceSessionLimit st t₁) t₁ p
          (getSessionKey p sp) h).sessionTTL t₂
        ⟨h, t₁, p, getSessionKey p sp⟩ = true := by
      rw [isSessionValid_iff, httl']
      refine ⟨?_, hdes⟩
      show t₂ - t₁ ≤ st.sessionTTL
      omega
    have step2 := hit (cacheStoreStep (enforceSessionLimit st t₁) t₁ p
        (getSessionKey p sp) h) t₂ p sp h'
    simp only [hstored] at step2
    rw [if_pos hvalid] at step2
    refine ⟨by rw [step1], by rw [step1], ?_, ?_⟩
    · rw [hstate, step2]
    · rw [hstate, step2]

/-- C3 witness: a fresh creation followed by a hit at the same instant. -/
theorem C3_cache_hit_iff_and_single_create_witness :
    (getOrCreateSession ⟨[], 1000, 5⟩ 0 "p" "sys" ⟨1, false⟩).created = true :=
  (C3_cache_hit_iff_and_single_create.2 ⟨[], 1000, 5⟩ 0 0 "p" "sys" ⟨1, false⟩ ⟨2, false⟩
    rfl rfl le_rfl (by decide)).1

/-- C2: `getOrCreateSession` has no single-flight guard.  Under the
cooperative scheduling model, when a second caller for the same
`(providerName, systemPrompt)` starts while the first caller is suspended
awaiting its `createSessionFn()`, both callers miss the cache, so
`createSessionFn` is invoked twice and the callers receive two distinct
session handles (the second overwriting the first in the cache), contrary to
the specified single-flight rule. -/
theorem C2_no_single_flight :
    (twoConcurrentCallers ⟨[], 30 * 60000, 5⟩ 0 "chrome-prompt" "sys"
        ⟨1, false⟩ ⟨2, false⟩).createCount = 2 ∧
      (twoConcurrentCallers ⟨[], 30 * 60000, 5⟩ 0 "chrome-prompt" "sys"
          ⟨1, false⟩ ⟨2, false⟩).first ≠
        (twoConcurrentCallers ⟨[], 30 * 60000, 5⟩ 0 "chrome-prompt" "sys"
            ⟨1, false⟩ ⟨2, false⟩).second := by
  refine ⟨by decide, by decide⟩

/-! ## Lemmas about the capacity-eviction scan -/

theorem oldestScan_no_update (l : List (String × CachedSession)) (k₀ : Option String)
    (t₀ : Int) (h : ∀ kc ∈ l, t₀ ≤ kc.2.timestamp) :
    l.foldl oldestScan (k₀, t₀) = (k₀, t₀) := by
  induction l generalizing k₀ t₀ with
  | nil => rfl
  | cons hd tl ih =>
      have h1 : ¬(hd.2.timestamp < t₀) := by
        have := h hd (List.mem_cons_self hd tl)
        omega
      rw [List.foldl_cons]
      have h2 : oldestScan (k₀, t₀) hd = (k₀, t₀) := by
        unfold oldestScan
        simp [h1]
      rw [h2]
      exact ih k₀ t₀ (fun kc hkc => h kc (List.mem_cons_of_mem hd hkc))

/-- The scan returns the first record achieving the strictly smallest
timestamp below the initial `oldestTime`. -/
theorem oldestScan_first_min (l : List (String × CachedSession)) :
    ∀ (k₀ : Option String) (t₀ : Int), (∃ kc ∈ l, kc.2.timestamp < t₀) →
      ∃ pre k c post, l = pre ++ (k, c) :: post ∧ c.timestamp < t₀ ∧
        (∀ kc ∈ pre, c.timestamp < kc.2.timestamp) ∧
        (∀ kc ∈ l, c.timestamp ≤ kc.2.timestamp) ∧
        l.foldl oldestScan (k₀, t₀) = (some k, c.timestamp) := by
  induction l with
  | nil =>
      rintro k₀ t₀ ⟨kc, hmem, _⟩
      cases hmem
  | cons hd tl ih =>
      rintro k₀ t₀ ⟨kc, hmem, hlt⟩
      by_cases hh : hd.2.timestamp < t₀
      · have h2 : oldestScan (k₀, t₀) hd = (some hd.1, hd.2.timestamp) := by
          unfold oldestScan
          simp [hh]
        by_cases htl : ∃ kc ∈ tl, kc.2.timestamp < hd.2.timestamp
        · obtain ⟨pre, k, c, post, heq, hct, hpre, hmin, hfold⟩ :=
            ih (some hd.1) hd.2.timestamp htl
          refine ⟨hd :: pre, k, c, post, by rw [heq, List.cons_append], by omega, ?_, ?_, ?_⟩
          · intro kc' hkc'
            rcases List.mem_cons.mp hkc' with hkc' | hkc'
            · subst hkc'
              exact hct
            · exact hpre kc' hkc'
          · intro kc' hkc'
            rcases List.mem_cons.mp hkc' with hkc' | hkc'
            · subst hkc'
              omega
            · exact hmin kc' hkc'
          · rw [List.foldl_cons, h2, hfold]
        · push_neg at htl
          refine ⟨[], hd.1, hd.2, tl, by simp, hh, by simp, ?_, ?_⟩
          · intro kc' hkc'
            rcases List.mem_cons.mp hkc' with hkc' | hkc'
            · subst hkc'
              exact le_rfl
            · exact htl kc' hkc'
          · rw [List.foldl_cons, h2]
            exact oldestScan_no_update tl _ _ htl
      · have hmem' : kc ∈ tl := by
          rcases List.mem_cons.mp hmem with h' | h'
          · subst h'
            exact absurd hlt hh
          · exact h'
        obtain ⟨pre, k, c, post, heq, hct, hpre, hmin, hfold⟩ := ih k₀ t₀ ⟨kc, hmem', hlt⟩
        have h2 : oldestScan (k₀, t₀) hd = (k₀, t₀) := by
          unfold oldestScan
          simp [hh]
        refine ⟨hd :: pre, k, c, post, by rw [heq, List.cons_append], hct, ?_, ?_, ?_⟩
        · intro kc' hkc'
          rcases List.mem_cons.mp hkc' with hkc' | hkc'
          · subst hkc'
            omega
          · exact hpre kc' hkc'
        · intro kc' hkc'
          rcases List.mem_cons.mp hkc' with hkc' | hkc'
          · subst hkc'
            omega
          · exact hmin kc' hkc'
        · rw [List.foldl_cons, h2, hfold]

theorem mapDelete_length_le (m : List (String × CachedSession)) (k : String) :
    (mapDelete m k).length ≤ m.length := by
  induction m with
  | nil => exact le_rfl
  | cons kv rest ih =>
      obtain ⟨a, b⟩ := kv
      simp only [mapDelete]
      split
      · simp only [List.length_cons]
        omega
      · simp only [List.length_cons]
        omega

theorem mapDelete_length_of_mem (m : List (String × CachedSession)) (k : String)
    (hk : k ∈ m.map Prod.fst) : (mapDelete m k).length + 1 = m.length := by
  induction m with
  | nil => cases hk
  | cons kv rest ih =>
      obtain ⟨a, b⟩ := kv
      simp only [mapDelete]
      by_cases h : a = k
      · rw [if_pos h]
        simp
      · have hk' : k ∈ rest.map Prod.fst := by
          simp only [List.map_cons, List.mem_cons] at hk
          rcases hk with h1 | h1
          · exact absurd h1.symm h
          · exact h1
        rw [if_neg h]
        have := ih hk'
        simp only [List.length_cons]
        omega

theorem mapGet_mem_keys (m : List (String × CachedSession)) (k : String)
    (c : CachedSession) (h : mapGet m k = some c) : k ∈ m.map Prod.fst := by
  induction m with
  | nil => cases h
  | cons kv rest ih =>
      obtain ⟨a, b⟩ := kv
      by_cases h1 : a = k
      · simp [h1]
      · have h' : mapGet rest k = some c := by simpa [mapGet, h1] using h
        simp [ih h']

theorem mem_mapDelete (m : List (String × CachedSession)) (k : String)
    (kc : String × CachedSession) (h : kc ∈ mapDelete m k) : kc ∈ m := by
  induction m with
  | nil => cases h
  | cons kv rest ih =>
      obtain ⟨a, b⟩ := kv
      simp only [mapDelete] at h
      by_cases h1 : a = k
      · rw [if_pos h1] at h
        exact List.mem_cons_of_mem _ h
      · rw [if_neg h1] at h
        rcases List.mem_cons.mp h with h' | h'
        · exact h' ▸ List.mem_cons_self _ _
        · exact List.mem_cons_of_mem _ (ih h')

theorem mem_mapSet (m : List (String × CachedSession)) (k : String)
    (v : CachedSession) (kc : String × CachedSession) (h : kc ∈ mapSet m k v) :
    kc ∈ m ∨ kc = (k, v) := by
  induction m with
  | nil =>
      simp only [mapSet, List.mem_singleton] at h
      exact Or.inr h
  | cons kv rest ih =>
      obtain ⟨a, b⟩ := kv
      simp only [mapSet] at h
      by_cases h1 : a = k
      · rw [if_pos h1] at h
        rcases List.mem_cons.mp h with h' | h'
        · subst h1
          exact Or.inr h'
        · exact Or.inl (List.mem_cons_of_mem _ h')
      · rw [if_neg h1] at h
        rcases List.mem_cons.mp h with h' | h'
        · exact Or.inl (h' ▸ List.mem_cons_self _ _)
        · rcases ih h' with h'' | h''
          · exact Or.inl (List.mem_cons_of_mem _ h'')
          · exact Or.inr h''

theorem mapSet_length_le (m : List (String × CachedSession)) (k : String)
    (v : CachedSession) : (mapSet m k v).length ≤ m.length + 1 := by
  induction m with
  | nil => simp [mapSet]
  | cons kv rest ih =>
      obtain ⟨a, b⟩ := kv
      simp only [mapSet]
      split
      · simp only [List.length_cons]
        omega
      · simp only [List.length_cons]
        omega

theorem enforce_of_lt (st : CacheState) (now : Int)
    (h : st.sessions.length < st.maxSessions) : enforceSessionLimit st now = st := by
  unfold enforceSessionLimit
  rw [if_neg (Nat.not_le.mpr h)]

/-- When the cache is at or above capacity and every record is strictly older
than `now`, `enforceSessionLimit` removes exactly the first-found record with
the smallest `createdAt`. -/
theorem enforce_evicts_first_oldest (st : CacheState) (now : Int)
    (hsize : st.maxSessions ≤ st.sessions.length)
    (hts : ∀ kc ∈ st.sessions, kc.2.timestamp < now)
    (hne : st.sessions ≠ []) :
    ∃ pre k c post, st.sessions = pre ++ (k, c) :: post ∧
      (∀ kc ∈ pre, c.timestamp < kc.2.timestamp) ∧
      (∀ kc ∈ st.sessions, c.timestamp ≤ kc.2.timestamp) ∧
      enforceSessionLimit st now = removeSession st k := by
  have hex : ∃ kc ∈ st.sessions, kc.2.timestamp < now := by
    cases hsess : st.sessions with
    | nil => exact absurd hsess hne
    | cons a l =>
        have hmema : a ∈ st.sessions := by
          rw [hsess]
          exact List.mem_cons_self a l
        exact ⟨a, List.mem_cons_self a l, hts a hmema⟩
  obtain ⟨pre, k, c, post, heq, _, hpre, hmin, hfold⟩ :=
    oldestScan_first_min st.sessions none now hex
  refine ⟨pre, k, c, post, heq, hpre, hmin, ?_⟩
  unfold enforceSessionLimit
  rw [if_pos hsize]
  have hfst : (findOldest st.sessions now).1 = some k := by
    unfold findOldest
    rw [hfold]
  rw [hfst]

theorem getOrCreate_preserves_max (st : CacheState) (now : Int) (p sp : String)
    (h : SessionHandle) :
    (getOrCreateSession st now p sp h).state.maxSessions = st.maxSessions := by
  rw [getOrCreateSession_eq]
  cases eq : mapGet st.sessions (getSessionKey p sp) with
  | none =>
      show (enforceSessionLimit st now).maxSessions = st.maxSessions
      exact enforce_preserves_max st now
  | some c =>
      by_cases hv : isSessionValid st.sessionTTL now c = true
      · simp only [if_pos hv]
      · simp only [if_neg hv]
        show (enforceSessionLimit (removeSession st (getSessionKey p sp)) now).maxSessions
            = st.maxSessions
        rw [enforce_preserves_max]
        rfl

/-- One `getOrCreateSession` call keeps the cache within capacity and stamps
no record later than `now`, provided capacity is positive and every existing
record is strictly older than `now`. -/
theorem getOrCreate_step_bound (st : CacheState) (now : Int) (p sp : String)
    (h : SessionHandle) (hmax : 1 ≤ st.maxSessions)
    (hts : ∀ kc ∈ st.sessions, kc.2.timestamp < now)
    (hlen : st.sessions.length ≤ st.maxSessions) :
    (getOrCreateSession st now p sp h).state.sessions.length ≤ st.maxSessions ∧
      ∀ kc ∈ (getOrCreateSession st now p sp h).state.sessions,
        kc.2.timestamp ≤ now := by
  rw [getOrCreateSession_eq]
  cases eq : mapGet st.sessions (getSessionKey p sp) with
  | some c =>
      by_cases hv : isSessionValid st.sessionTTL now c = true
      · simp only [if_pos hv]
        exact ⟨hlen, fun kc hkc => le_of_lt (hts kc hkc)⟩
      · simp only [if_neg hv]
        have hdel : (mapDelete st.sessions (getSessionKey p sp)).length + 1
            = st.sessions.length :=
          mapDelete_length_of_mem _ _ (mapGet_mem_keys _ _ _ eq)
        have henf : enforceSessionLimit (removeSession st (getSessionKey p sp)) now
            = removeSession st (getSessionKey p sp) := by
          refine enforce_of_lt _ now ?_
          show (mapDelete st.sessions (getSessionKey p sp)).length < st.maxSessions
          omega
        show (cacheStoreStep (enforceSessionLimit (removeSession st (getSessionKey p sp))
            now) now p (getSessionKey p sp) h).sessions.length ≤ st.maxSessions ∧ _
        rw [henf]
        constructor
        · have hms := mapSet_length_le (mapDelete st.sessions (getSessionKey p sp))
            (getSessionKey p sp) ⟨h, now, p, getSessionKey p sp⟩
          show (mapSet (mapDelete st.sessions (getSessionKey p sp)) (getSessionKey p sp)
              ⟨h, now, p, getSessionKey p sp⟩).length ≤ st.maxSessions
          omega
        · intro kc hkc
          rcases mem_mapSet _ _ _ _ hkc with hkc' | hkc'
          · exact le_of_lt (hts kc (mem_mapDelete _ _ _ hkc'))
          · rw [hkc']
  | none =>
      show (cacheStoreStep (enforceSessionLimit st now) now p (getSessionKey p sp)
          h).sessions.length ≤ st.maxSessions ∧ _
      by_cases hc : st.maxSessions ≤ st.sessions.length
      · have hne : st.sessions ≠ [] := by
          intro h0
          rw [h0] at hc
          simp only [List.length_nil, Nat.le_zero] at hc
          omega
        obtain ⟨pre, k, c, post, heq, hpre, hmin, henf⟩ :=
          enforce_evicts_first_oldest st now hc hts hne
        rw [henf]
        have hkmem : k ∈ st.sessions.map Prod.fst := by
          rw [heq]
          simp
        have hdel := mapDelete_length_of_mem st.sessions k hkmem
        constructor
        · have hms := mapSet_length_le (mapDelete st.sessions k) (getSessionKey p sp)
            ⟨h, now, p, getSessionKey p sp⟩
          show (mapSet (mapDelete st.sessions k) (getSessionKey p sp)
              ⟨h, now, p, getSessionKey p sp⟩).length ≤ st.maxSessions
          omega
        · intro kc hkc
          rcases mem_mapSet _ _ _ _ hkc with hkc' | hkc'
          · exact le_of_lt (hts kc (mem_mapDelete _ _ _ hkc'))
          · rw [hkc']
      · rw [enforce_of_lt st now (Nat.not_le.mp hc)]
        constructor
        · have hms := mapSet_length_le st.sessions (getSessionKey p sp)
            ⟨h, now, p, getSessionKey p sp⟩
          have hlt := Nat.not_le.mp hc
          show (mapSet st.sessions (getSessionKey p sp)
              ⟨h, now, p, getSessionKey p sp⟩).length ≤ st.maxSessions
          omega
        · intro kc hkc
          rcases mem_mapSet _ _ _ _ hkc with hkc' | hkc'
          · exact le_of_lt (hts kc hkc')
          · rw [hkc']

theorem runInserts_size_bound (ops : List (Int × String × String × SessionHandle)) :
    ∀ (st : CacheState) (t : Int), 1 ≤ st.maxSessions →
      (∀ kc ∈ st.sessions, kc.2.timestamp ≤ t) →
      st.sessions.length ≤ st.maxSessions → chronoAfter t ops = true →
      (runInserts st ops).sessions.length ≤ st.maxSessions ∧
        (runInserts st ops).maxSessions = st.maxSessions := by
  induction ops with
  | nil =>
      intro st t _ _ h3 _
      exact ⟨h3, rfl⟩
  | cons op rest ih =>
      obtain ⟨now, p, sp, h⟩ := op
      intro st t h1 h2 h3 hchrono
      simp only [chronoAfter, Bool.and_eq_true, decide_eq_true_eq] at hchrono
      obtain ⟨hlt, hrest⟩ := hchrono
      have hts : ∀ kc ∈ st.sessions, kc.2.timestamp < now := fun kc hkc =>
        lt_of_le_of_lt (h2 kc hkc) hlt
      obtain ⟨hb, hm⟩ := getOrCreate_step_bound st now p sp h h1 hts h3
      have hmax := getOrCreate_preserves_max st now p sp h
      have hrun := ih (getOrCreateSession st now p sp h).state now
        (by rw [hmax]; exact h1) hm (by rw [hmax]; exact hb) hrest
      rw [hmax] at hrun
      exact hrun

/-- C4: the capacity invariant fails when records share the insertion tick.
With `maxSessions = 1`, inserting two distinct keys at the same `Date.now()`
leaves two records: the eviction scan starts from `oldestTime = Date.now()`
and only picks records with strictly smaller timestamps, so a record created
at the current tick is never evicted and the new record is stored anyway. -/
theorem C4_counterexample :
    (runInserts ⟨[], 30 * 60000, 1⟩
        [(5, "p", "A", ⟨1, false⟩), (5, "p", "B", ⟨2, false⟩)]).sessions.length = 2 ∧
      (runInserts ⟨[], 30 * 60000, 1⟩
        [(5, "p", "A", ⟨1, false⟩), (5, "p", "B", ⟨2, false⟩)]).maxSessions = 1 := by
  refine ⟨by decide, by decide⟩

/-- C4 (amended): provided every insertion happens strictly later than every
record already in the cache (e.g. under a strictly increasing clock) and
capacity is positive, the cache never holds more than `maxSessions` records;
when an insertion occurs at or above capacity, the single record with the
smallest `createdAt` (ties broken first-found) is evicted before the new
record is stored; and with `maxSessions = 2`, inserting A(t=0), B(t=10),
C(t=20) leaves exactly the records for B and C. -/
theorem C4_capacity_bound_and_oldest_eviction :
    (∀ (st : CacheState) (t : Int) (ops : List (Int × String × String × SessionHandle)),
      1 ≤ st.maxSessions → (∀ kc ∈ st.sessions, kc.2.timestamp ≤ t) →
      st.sessions.length ≤ st.maxSessions → chronoAfter t ops = true →
      (runInserts st ops).sessions.length ≤ st.maxSessions) ∧
    (∀ (st : CacheState) (now : Int),
      st.maxSessions ≤ st.sessions.length →
      (∀ kc ∈ st.sessions, kc.2.timestamp < now) → st.sessions ≠ [] →
      ∃ pre k c post, st.sessions = pre ++ (k, c) :: post ∧
        (∀ kc ∈ pre, c.timestamp < kc.2.timestamp) ∧
        (∀ kc ∈ st.sessions, c.timestamp ≤ kc.2.timestamp) ∧
        enforceSessionLimit st now = removeSession st k) ∧
    (runInserts ⟨[], 30 * 60000, 2⟩
        [(0, "p", "A", ⟨1, false⟩), (10, "p", "B", ⟨2, false⟩),
          (20, "p", "C", ⟨3, false⟩)]).sessions.map Prod.fst
      = [getSessionKey "p" "B", getSessionKey "p" "C"] := by
  refine ⟨fun st t ops h1 h2 h3 h4 => (runInserts_size_bound ops st t h1 h2 h3 h4).1,
    enforce_evicts_first_oldest, by decide⟩

/-- C4 witness: the capacity bound applied to a single insertion into an
empty single-slot cache. -/
theorem C4_capacity_bound_and_oldest_eviction_witness :
    (runInserts ⟨[], 1000, 1⟩ [(0, "p", "A", ⟨1, false⟩)]).sessions.length ≤ 1 :=
  C4_capacity_bound_and_oldest_eviction.1 ⟨[], 1000, 1⟩ (-1)
    [(0, "p", "A", ⟨1, false⟩)] (by decide) (by simp) (by decide) (by decide)

/-! ## Response-validator claims -/

/-- C5: the three extraction strategies are not tried to completion.  On
`"```\nnope\n``` {"a":1}"` strategy 1 fails, strategy 2 finds the fenced
block `nope` whose `JSON.parse` failure propagates out of the `catch`, and
strategy 3 — whose brace-span candidate `{"a":1}` exists and parses — is
never attempted; the function neither succeeds nor raises the
truncated-excerpt error the claim describes. -/
theorem C5_counterexample :
    parseAIResponse "```\nnope\n``` \x7b\"a\":1\x7d"
        = .error (.jsonSyntaxError "nope") ∧
      braceSpan (jsTrim "```\nnope\n``` \x7b\"a\":1\x7d") = some "\x7b\"a\":1\x7d" ∧
      jsonParse "\x7b\"a\":1\x7d" = some (.obj [("a", .num 1)]) ∧
      parseAIResponse "```\nnope\n``` \x7b\"a\":1\x7d"
          ≠ .ok (.obj [("a", .num 1)]) := by
  refine ⟨rfl, rfl, rfl, ?_⟩
  intro h
  have h2 : (Except.error (ParseFailure.jsonSyntaxError "nope") :
      Except ParseFailure JsonVal) = Except.ok (JsonVal.obj [("a", JsonVal.num 1)]) :=
    Eq.trans (by rfl) h
  exact Except.noConfusion h2

/-- C5 (amended): the validator tries the whole trimmed text, then the fenced
code block, then the first-`{`-to-last-`}` span, stopping at the first
success — except that when a later strategy's candidate is found but fails to
parse, that parse error propagates without attempting further strategies, and
the truncated-excerpt error is raised only when neither a fenced block nor a
brace span exists.  The claim's four concrete examples behave as stated. -/
theorem C5_extraction_strategies :
    (∀ s v, jsonParse (jsTrim s) = some v → parseAIResponse s = .ok v) ∧
      (∀ s inner, jsonParse (jsTrim s) = none → extractCodeBlock (jsTrim s) = some inner →
        parseAIResponse s =
          match jsonParse (jsTrim inner) with
          | some v => .ok v
          | none => .error (.jsonSyntaxError (jsTrim inner))) ∧
      (∀ s sub, jsonParse (jsTrim s) = none → extractCodeBlock (jsTrim s) = none →
        braceSpan (jsTrim s) = some sub →
        parseAIResponse s =
          match jsonParse sub with
          | some v => .ok v
          | none => .error (.jsonSyntaxError sub)) ∧
      (∀ s, jsonParse (jsTrim s) = none → extractCodeBlock (jsTrim s) = none →
        braceSpan (jsTrim s) = none →
        parseAIResponse s = .error (.invalidResponse (jsSubstring100 (jsTrim s)))) ∧
      parseAIResponse "\x7b\"a\":1\x7d" = .ok (.obj [("a", .num 1)]) ∧
      parseAIResponse "```json\n\x7b\"a\":1\x7d\n```" = .ok (.obj [("a", .num 1)]) ∧
      parseAIResponse "here you go: \x7b\"a\":1\x7d thanks"
          = .ok (.obj [("a", .num 1)]) ∧
      parseAIResponse "not json at all"
          = .error (.invalidResponse "not json at all") := by
  refine ⟨?_, ?_, ?_, ?_, rfl, rfl, rfl, rfl⟩
  · intro s v h
    simp only [parseAIResponse, h]
  · intro s inner h1 h2
    simp only [parseAIResponse, h1, h2]
  · intro s sub h1 h2 h3
    simp only [parseAIResponse, h1, h2, h3]
  · intro s h1 h2 h3
    simp only [parseAIResponse, h1, h2, h3]

/-- C5 witness: the first strategy applied to a plain JSON number. -/
theorem C5_extraction_strategies_witness :
    parseAIResponse "7" = .ok (.num 7) :=
  C5_extraction_strategies.1 "7" (.num 7) rfl

/-! ## Vagueness-score default claims -/

/-- C10: the `||`-based default substitution treats every falsy value —
including a genuine score of 0 — as absent: a parsed response carrying
`vaguenessScore: 0` yields 5 from `parseAnalysisResponse` and 8 from
`optimizeWithContext`. -/
theorem C10_zero_score_replaced :
    (∀ aiResponse originalPrompt sub parsed,
      braceSpan aiResponse = some sub → jsonParse sub = some parsed →
      jsFieldTruthy (parsed.getField "issues") = true →
      jsFieldTruthy (parsed.getField "suggestions") = true →
      jsFieldTruthy (parsed.getField "optimizedPrompt") = true →
      parsed.getField "vaguenessScore" = some (.num 0) →
      fieldGet (parseAnalysisResponse aiResponse originalPrompt) "vaguenessScore"
        = some (.num 5)) ∧
    (∀ (env : SessionEnv) pname sh response parsed originalPrompt n,
      env.provider = .ok pname → env.session = .ok sh → env.response = .ok response →
      parseAIResponse response = .ok parsed →
      parsed.getField "vaguenessScore" = some (.num 0) →
      fieldGet (optimizeWithContext env originalPrompt n).1 "vaguenessScore"
        = some (.num 8)) := by
  constructor
  · intro aiResponse originalPrompt sub parsed h1 h2 h3 h4 h5 h6
    simp only [parseAnalysisResponse, h1, h2, h3, h4, h5, h6, Bool.and_self,
      if_pos, createAnalysisResult, jsOrDefault, jsTruthy]
    rfl
  · intro env pname sh response parsed originalPrompt n h1 h2 h3 h4 h5
    obtain ⟨p, s, r⟩ := env
    cases h1
    cases h2
    cases h3
    simp only [optimizeWithContext, h4, h5, jsOrDefault, jsTruthy]
    rfl

/-- C10 witness: the two substitutions observed on concrete zero-score
responses. -/
theorem C10_zero_score_replaced_witness :
    fieldGet (parseAnalysisResponse
        "\x7b\"issues\":[\"i\"],\"suggestions\":[\"s\"],\"optimizedPrompt\":\"o\",\"vaguenessScore\":0\x7d"
        "orig") "vaguenessScore" = some (.num 5) :=
  C10_zero_score_replaced.1
    "\x7b\"issues\":[\"i\"],\"suggestions\":[\"s\"],\"optimizedPrompt\":\"o\",\"vaguenessScore\":0\x7d"
    "orig"
    "\x7b\"issues\":[\"i\"],\"suggestions\":[\"s\"],\"optimizedPrompt\":\"o\",\"vaguenessScore\":0\x7d"
    (.obj [("issues", .arr [.str "i"]), ("suggestions", .arr [.str "s"]),
      ("optimizedPrompt", .str "o"), ("vaguenessScore", .num 0)])
    rfl rfl rfl rfl rfl rfl

/-! ## Input-validation and error-propagation claims -/

/-- C7: only `analyzePrompt` validates the prompt length.
`generateClarifyingQuestions` with a prompt of length 2 under
`minPromptLength = 3` does not raise: it proceeds through provider selection,
session creation and the model round trip and returns a success result. -/
theorem C7_counterexample :
    "ab".length < llmAnalysisConfig.minPromptLength ∧
      fieldGet (generateClarifyingQuestions
          ⟨.ok "chrome-prompt", .ok ⟨1, false⟩, .ok "\x7b\"questions\":[]\x7d"⟩
          "ab").1 "success" = some (.bool true) ∧
      (generateClarifyingQuestions
          ⟨.ok "chrome-prompt", .ok ⟨1, false⟩, .ok "\x7b\"questions\":[]\x7d"⟩
          "ab").2 = [.selectProvider, .createSession, .promptSession] := by
  exact ⟨by decide, rfl, rfl⟩

/-- C7 (amended): `analyzePrompt` validates the prompt's length against the
configured bounds and raises an input-validation error to the immediate
caller before any provider or cache activity (the outcome is independent of
the provider environment); `generateClarifyingQuestions` and
`optimizeWithContext` perform no length validation — on every input they
proceed to provider selection. -/
theorem C7_only_analyze_validates :
    (∀ (cfg : AnalysisConfig) (env : AnalyzeEnv) (prompt : String),
      prompt = "" ∨ prompt.length < cfg.minPromptLength →
      analyzePromptModel cfg env prompt = .error "Prompt too short for analysis") ∧
      (∀ (cfg : AnalysisConfig) (env : AnalyzeEnv) (prompt : String),
        ¬(prompt = "" ∨ prompt.length < cfg.minPromptLength) →
        cfg.maxPromptLength < prompt.length →
        analyzePromptModel cfg env prompt = .error "Prompt too long for analysis") ∧
      (∀ (env : SessionEnv) (prompt : String),
        OrchestratorEvent.selectProvider ∈ (generateClarifyingQuestions env prompt).2) ∧
      (∀ (env : SessionEnv) (prompt : String) (n : Nat),
        OrchestratorEvent.selectProvider ∈ (optimizeWithContext env prompt n).2) := by
  refine ⟨?_, ?_, ?_, ?_⟩
  · intro cfg env prompt h
    simp only [analyzePromptModel, if_pos h]
  · intro cfg env prompt h1 h2
    simp only [analyzePromptModel, if_neg h1, if_pos h2]
  · intro env prompt
    obtain ⟨p, s, r⟩ := env
    cases p with
    | error e => simp [generateClarifyingQuestions]
    | ok pname =>
        cases s with
        | error e => simp [generateClarifyingQuestions]
        | ok sh =>
            cases r with
            | error e => simp [generateClarifyingQuestions]
            | ok resp =>
                cases hp : parseAIResponse resp with
                | ok parsed => simp [generateClarifyingQuestions, hp]
                | error pe => simp [generateClarifyingQuestions, hp]
  · intro env prompt n
    obtain ⟨p, s, r⟩ := env
    cases p with
    | error e => simp [optimizeWithContext]
    | ok pname =>
        cases s with
        | error e => simp [optimizeWithContext]
        | ok sh =>
            cases r with
            | error e => simp [optimizeWithContext]
            | ok resp =>
                cases hp : parseAIResponse resp with
                | ok parsed => simp [optimizeWithContext, hp]
                | error pe => simp [optimizeWithContext, hp]

/-- C7 witness: the length-2 prompt raises from `analyzePrompt` under the
configured bounds, for an arbitrary concrete environment. -/
theorem C7_only_analyze_validates_witness :
    analyzePromptModel llmAnalysisConfig ⟨.ok "chrome-prompt", .ok ⟨1, false⟩, .ok []⟩
        "ab" = .error "Prompt too short for analysis" :=
  C7_only_analyze_validates.1 llmAnalysisConfig
    ⟨.ok "chrome-prompt", .ok ⟨1, false⟩, .ok []⟩ "ab" (Or.inr (by decide))

/-- C8: the failure results of `generateClarifyingQuestions` (and
`optimizeWithContext`) do not carry `confidence: 0` or remediation
`issues`/`suggestions`: when provider selection fails, the returned object
has `success: false` and `provider: "error"` but no `confidence`, `issues`
or `suggestions` fields at all. -/
theorem C8_counterexample :
    fieldGet (generateClarifyingQuestions ⟨.error "boom", .ok ⟨1, false⟩, .ok ""⟩
        "tell me about x").1 "success" = some (.bool false) ∧
      fieldGet (generateClarifyingQuestions ⟨.error "boom", .ok ⟨1, false⟩, .ok ""⟩
        "tell me about x").1 "provider" = some (.str "error") ∧
      fieldGet (generateClarifyingQuestions ⟨.error "boom", .ok ⟨1, false⟩, .ok ""⟩
        "tell me about x").1 "confidence" = none ∧
      fieldGet (generateClarifyingQuestions ⟨.error "boom", .ok ⟨1, false⟩, .ok ""⟩
        "tell me about x").1 "issues" = none ∧
      fieldGet (generateClarifyingQuestions ⟨.error "boom", .ok ⟨1, false⟩, .ok ""⟩
        "tell me about x").1 "suggestions" = none := by
  exact ⟨rfl, rfl, rfl, rfl, rfl⟩

/-- C8 (amended): every error other than an input-validation error is caught
at the orchestrator boundary and converted to a structured result rather than
escaping (the operations are total once validation passes).  `analyzePrompt`'s
failure result carries `success: false`, `provider: "error"`,
`confidence: 0` and remediation `issues`/`suggestions`;
`generateClarifyingQuestions` and `optimizeWithContext` outer failures carry
`success: false`, `provider: "error"` and the error message but no
`confidence`, `issues` or `suggestions` fields; their response-parse failures
keep the selected provider's name. -/
theorem C8_error_containment :
    (∀ (cfg : AnalysisConfig) (env : AnalyzeEnv) (prompt e : String),
      ¬(prompt = "" ∨ prompt.length < cfg.minPromptLength) →
      ¬(cfg.maxPromptLength < prompt.length) →
      (env.provider = .error e ∨
        (∃ pn, env.provider = .ok pn ∧ env.session = .error e) ∨
        (∃ pn sh, env.provider = .ok pn ∧ env.session = .ok sh ∧
          env.analyzeResult = .error e)) →
      ∃ evs, analyzePromptModel cfg env prompt
          = .ok (analysisFailureResult prompt e, evs)) ∧
    (∀ prompt e,
      fieldGet (analysisFailureResult prompt e) "success" = some (.bool false) ∧
        fieldGet (analysisFailureResult prompt e) "provider" = some (.str "error") ∧
        fieldGet (analysisFailureResult prompt e) "confidence" = some (.num 0) ∧
        fieldGet (analysisFailureResult prompt e) "issues"
          = some (.arr [.str ("Analysis failed: " ++ e)]) ∧
        fieldGet (analysisFailureResult prompt e) "suggestions"
          = some (.arr [.str "Check if PromptAPI is enabled in chrome://flags/",
              .str "Ensure you have sufficient storage space",
              .str "Try refreshing the page and trying again"])) ∧
    (∀ (env : SessionEnv) (p e : String),
      (env.provider = .error e ∨
        (∃ pn, env.provider = .ok pn ∧ env.session = .error e) ∨
        (∃ pn sh, env.provider = .ok pn ∧ env.session = .ok sh ∧
          env.response = .error e)) →
      (generateClarifyingQuestions env p).1
        = [("success", .bool false), ("questions", .arr []), ("error", .str e),
            ("provider", .str "error")]) ∧
    (∀ (env : SessionEnv) (p pn : String) (sh : SessionHandle) (resp : String)
        (pe : ParseFailure),
      env.provider = .ok pn → env.session = .ok sh → env.response = .ok resp →
      parseAIResponse resp = .error pe →
      (generateClarifyingQuestions env p).1
        = [("success", .bool false), ("questions", .arr []),
            ("error", .str "Failed to generate questions. Please try again."),
            ("provider", .str pn)]) ∧
    (∀ (env : SessionEnv) (p e : String) (n : Nat),
      (env.provider = .error e ∨
        (∃ pn, env.provider = .ok pn ∧ env.session = .error e) ∨
        (∃ pn sh, env.provider = .ok pn ∧ env.session = .ok sh ∧
          env.response = .error e)) →
      (optimizeWithContext env p n).1
        = [("success", .bool false), ("optimizedPrompt", .str p),
            ("improvements", .arr []), ("vaguenessScore", .num 1),
            ("error", .str e), ("provider", .str "error")]) ∧
    (∀ (env : SessionEnv) (p pn : String) (sh : SessionHandle) (resp : String)
        (pe : ParseFailure) (n : Nat),
      env.provider = .ok pn → env.session = .ok sh → env.response = .ok resp →
      parseAIResponse resp = .error pe →
      (optimizeWithContext env p n).1
        = [("success", .bool false), ("optimizedPrompt", .str p),
            ("improvements", .arr []), ("vaguenessScore", .num 3),
            ("error", .str "Failed to optimize prompt. Please try again."),
            ("provider", .str pn)]) := by
  refine ⟨?_, ?_, ?_, ?_, ?_, ?_⟩
  · intro cfg env prompt e h1 h2 h3
    obtain ⟨p, s, r⟩ := env
    simp only [analyzePromptModel, if_neg h1, if_neg h2]
    rcases h3 with h | ⟨pn, hp, hs⟩ | ⟨pn, sh, hp, hs, hr⟩
    · cases h
      exact ⟨_, rfl⟩
    · cases hp
      cases hs
      exact ⟨_, rfl⟩
    · cases hp
      cases hs
      cases hr
      exact ⟨_, rfl⟩
  · intro prompt e
    exact ⟨rfl, rfl, rfl, rfl, rfl⟩
  · intro env p e h3
    obtain ⟨pv, s, r⟩ := env
    rcases h3 with h | ⟨pn, hp, hs⟩ | ⟨pn, sh, hp, hs, hr⟩
    · cases h
      rfl
    · cases hp
      cases hs
      rfl
    · cases hp
      cases hs
      cases hr
      rfl
  · intro env p pn sh resp pe h1 h2 h3 h4
    obtain ⟨pv, s, r⟩ := env
    cases h1
    cases h2
    cases h3
    simp only [generateClarifyingQuestions, h4]
  · intro env p e n h3
    obtain ⟨pv, s, r⟩ := env
    rcases h3 with h | ⟨pn, hp, hs⟩ | ⟨pn, sh, hp, hs, hr⟩
    · cases h
      rfl
    · cases hp
      cases hs
      rfl
    · cases hp
      cases hs
      cases hr
      rfl
  · intro env p pn sh resp pe n h1 h2 h3 h4
    obtain ⟨pv, s, r⟩ := env
    cases h1
    cases h2
    cases h3
    simp only [optimizeWithContext, h4]

/-- C8 witness: a provider-selection failure contained by
`generateClarifyingQuestions`. -/
theorem C8_error_containment_witness :
    (generateClarifyingQuestions ⟨.error "boom", .ok ⟨1, false⟩, .ok ""⟩ "q").1
      = [("success", .bool false), ("questions", .arr []), ("error", .str "boom"),
          ("provider", .str "error")] :=
  C8_error_containment.2.2.1 ⟨.error "boom", .ok ⟨1, false⟩, .ok ""⟩ "q" "boom"
    (Or.inl rfl)

/-! ## Provider-selection claims -/

theorem mem_insertByPriority (c x : ProviderConfig) (l : List ProviderConfig) :
    x ∈ insertByPriority c l ↔ x = c ∨ x ∈ l := by
  induction l with
  | nil => simp [insertByPriority]
  | cons d rest ih =>
      simp only [insertByPriority]
      split
      · exact List.mem_cons
      · rw [List.mem_cons, ih, List.mem_cons]
        tauto

theorem mem_sortByPriority (x : ProviderConfig) (l : List ProviderConfig) :
    x ∈ sortByPriority l ↔ x ∈ l := by
  induction l with
  | nil => simp [sortByPriority]
  | cons c rest ih =>
      simp [sortByPriority, mem_insertByPriority, ih, List.mem_cons]

theorem pairwise_insertByPriority (c : ProviderConfig) (l : List ProviderConfig)
    (hl : l.Pairwise (fun a b => a.priority ≤ b.priority)) :
    (insertByPriority c l).Pairwise (fun a b => a.priority ≤ b.priority) := by
  induction l with
  | nil => simp [insertByPriority]
  | cons d rest ih =>
      rcases List.pairwise_cons.mp hl with ⟨hd, hrest⟩
      simp only [insertByPriority]
      split
      · rename_i hc
        refine List.pairwise_cons.mpr ⟨?_, hl⟩
        intro x hx
        rcases List.mem_cons.mp hx with h | h
        · subst h
          omega
        · have := hd x h
          omega
      · rename_i hc
        refine List.pairwise_cons.mpr ⟨?_, ih hrest⟩
        intro x hx
        rcases (mem_insertByPriority c x rest).mp hx with h | h
        · subst h
          omega
        · exact hd x h

theorem pairwise_sortByPriority (l : List ProviderConfig) :
    (sortByPriority l).Pairwise (fun a b => a.priority ≤ b.priority) := by
  induction l with
  | nil => simp [sortByPriority]
  | cons c rest ih => exact pairwise_insertByPriority c _ ih

/-- The selection loop is the first hit of the acceptance predicate. -/
theorem selectLoop_eq_find (registry : List (String × Availability))
    (l : List ProviderConfig) :
    selectLoop registry l = (l.find? (eligible registry)).map ProviderConfig.name := by
  induction l with
  | nil => rfl
  | cons c rest ih =>
      simp only [selectLoop]
      cases hr : registryGet registry c.name with
      | none =>
          have he : eligible registry c = false := by simp [eligible, hr]
          rw [List.find?_cons_of_neg _ (by simp [he])]
          exact ih
      | some avail =>
          cases avail with
          | ready =>
              have he : eligible registry c = true := by simp [eligible, hr]
              rw [List.find?_cons_of_pos _ (by simp [he])]
              rfl
          | downloading =>
              by_cases hn : c.name = "chrome-prompt"
              · have he : eligible registry c = true := by
                  unfold eligible
                  rw [hr]
                  simp [hn]
                rw [List.find?_cons_of_pos _ (by simp [he]), if_pos hn]
                rfl
              · have he : eligible registry c = false := by simp [eligible, hr, hn]
                rw [List.find?_cons_of_neg _ (by simp [he]), if_neg hn]
                exact ih
          | unavailable =>
              have he : eligible registry c = false := by simp [eligible, hr]
              rw [List.find?_cons_of_neg _ (by simp [he])]
              exact ih

theorem select_eq_first_eligible (configs : List ProviderConfig)
    (registry : List (String × Availability)) :
    selectBestProvider configs registry =
      match (sortByPriority configs).find? (eligible registry) with
      | some c => .ok c.name
      | none =>
          .error ⟨registry.map Prod.fst, (sortByPriority configs).map ProviderConfig.name⟩ := by
  unfold selectBestProvider
  rw [selectLoop_eq_find]
  cases (sortByPriority configs).find? (eligible registry) <;> rfl

/-- On a priority-sorted list, `find?` returns an element of minimal priority
among those satisfying the predicate. -/
theorem find_min_of_pairwise (l : List ProviderConfig) (p : ProviderConfig → Bool)
    (c : ProviderConfig) (hl : l.Pairwise (fun a b => a.priority ≤ b.priority))
    (hf : l.find? p = some c) :
    ∀ c' ∈ l, p c' = true → c.priority ≤ c'.priority := by
  induction l with
  | nil => cases hf
  | cons d rest ih =>
      rcases List.pairwise_cons.mp hl with ⟨hd, hrest⟩
      by_cases hp : p d = true
      · rw [List.find?_cons_of_pos _ (by simp [hp])] at hf
        cases hf
        intro c' hc' _
        rcases List.mem_cons.mp hc' with h | h
        · subst h
          exact le_rfl
        · exact hd c' h
      · rw [List.find?_cons_of_neg _ (by simp [hp])] at hf
        intro c' hc' hpc'
        rcases List.mem_cons.mp hc' with h | h
        · subst h
          exact absurd hpc' hp
        · exact ih hrest hf c' h hpc'

theorem select_ok_min (configs : List ProviderConfig)
    (registry : List (String × Availability)) (n : String)
    (h : selectBestProvider configs registry = .ok n) :
    ∃ c ∈ configs, c.name = n ∧ eligible registry c = true ∧
      ∀ c' ∈ configs, eligible registry c' = true → c.priority ≤ c'.priority := by
  rw [select_eq_first_eligible] at h
  cases hf : (sortByPriority configs).find? (eligible registry) with
  | none =>
      rw [hf] at h
      cases h
  | some c =>
      rw [hf] at h
      cases h
      refine ⟨c, (mem_sortByPriority c configs).mp (List.mem_of_find?_eq_some hf),
        rfl, List.find?_some hf, ?_⟩
      intro c' hc' he'
      exact find_min_of_pairwise _ _ _ (pairwise_sortByPriority configs) hf c'
        ((mem_sortByPriority c' configs).mpr hc') he'

/-- C1: the selection loop does not prefer `ready` providers over
`downloading` ones, and accepts a `downloading` provider only when it is
named exactly `chrome-prompt`: with a single registered provider `openai`
(priority 1) probing `downloading`, the claim says it is selected, but the
code throws the provider-unavailable error. -/
theorem C1_counterexample :
    registryGet [("openai", .downloading)] "openai" = some .downloading ∧
      selectBestProvider [⟨"openai", 1⟩] [("openai", .downloading)]
        = .error ⟨["openai"], ["openai"]⟩ := by
  exact ⟨rfl, rfl⟩

/-- C1 (amended): `selectBestProvider` scans the registered providers in
ascending priority order (stable in registration order on ties) and returns
the first whose probed availability is `ready`, or `downloading` while the
provider is named `chrome-prompt`; any returned provider has minimal priority
among the acceptable ones; if none qualifies it raises the
provider-unavailable error carrying the registered and configured names.  The
claim's concrete scenario — A(priority 1, unavailable), B(priority 2, ready) —
selects B, and with two tied-priority ready providers the first-registered
one (X before Y) is selected. -/
theorem C1_priority_selection :
    (∀ (configs : List ProviderConfig) (registry : List (String × Availability)),
      selectBestProvider configs registry =
        match (sortByPriority configs).find? (eligible registry) with
        | some c => .ok c.name
        | none =>
            .error ⟨registry.map Prod.fst,
              (sortByPriority configs).map ProviderConfig.name⟩) ∧
      (∀ (configs : List ProviderConfig) (registry : List (String × Availability))
          (n : String), selectBestProvider configs registry = .ok n →
        ∃ c ∈ configs, c.name = n ∧ eligible registry c = true ∧
          ∀ c' ∈ configs, eligible registry c' = true → c.priority ≤ c'.priority) ∧
      selectBestProvider [⟨"A", 1⟩, ⟨"B", 2⟩] [("A", .unavailable), ("B", .ready)]
        = .ok "B" ∧
      selectBestProvider [⟨"X", 1⟩, ⟨"Y", 1⟩] [("X", .ready), ("Y", .ready)]
        = .ok "X" :=
  ⟨select_eq_first_eligible, select_ok_min, rfl, rfl⟩

/-- C1 witness: the minimality characterization applied to the concrete
scenario. -/
theorem C1_priority_selection_witness :
    ∃ c ∈ [ProviderConfig.mk "A" 1, ProviderConfig.mk "B" 2], c.name = "B" ∧
      eligible [("A", Availability.unavailable), ("B", Availability.ready)] c = true ∧
      ∀ c' ∈ [ProviderConfig.mk "A" 1, ProviderConfig.mk "B" 2],
        eligible [("A", Availability.unavailable), ("B", Availability.ready)] c' = true →
        c.priority ≤ c'.priority :=
  C1_priority_selection.2.1 [⟨"A", 1⟩, ⟨"B", 2⟩]
    [("A", .unavailable), ("B", .ready)] "B" rfl

end PerfectPrompt
